import Mathlib

/-!
Shallow embedding of the adaptive player-modeling core of the `nightmare`
repository (packages `internal/ai`, `internal/entity`, `internal/event`,
`internal/common`).  Go `float64` values are modelled as rationals (`ℚ`),
except for the recommendation priority which uses `math.Exp` and is
modelled over `ℝ`.  Go `time.Duration` / `time.Time` values are modelled
as rational numbers of seconds.  Go maps keyed by enum types are modelled
as total functions from the enum, with the convention that a key that was
never inserted maps to the zero value (empty list / 0).
-/

namespace Nightmare

/-- 2D vector (`entity.Vector2D` / `common.Vector2D`). -/
structure Vector2D where
  X : ℚ
  Y : ℚ
deriving DecidableEq

/-- Fear kinds (`ai.FearType`), nine constructors in source order. -/
inductive FearType where
  | darkness | creatures | suddenNoises | isolation | chasing
  | gore | claustrophobia | openSpaces | unknown
deriving DecidableEq, Fintype

/-- Reactor archetypes (`ai.ReactorType`), six constructors in source order. -/
inductive ReactorType where
  | cautious | bold | panic | methodical | reckless | hesitant
deriving DecidableEq, Fintype

/-- Player action kinds (`ai.ActionType`), eight constructors in source order. -/
inductive ActionType where
  | move | run | hide | interact | attack | investigate | retreat | freeze
deriving DecidableEq, Fintype

/-- Scare event kinds (`ai.ScareEventType` / `common.ScareEventType`). -/
inductive ScareEventType where
  | ambientSound | suddenNoise | creatureAppearance | environmentChange
  | hallucination | whisper
deriving DecidableEq, Fintype

/-- Dynamic value: model of the Go `interface{}` payload slots of
`event.EventData`.  A Go `nil` is modelled as `Option.none` at the use
site; the constructors cover the concrete types the observer handlers
type-assert against, plus a catch-all `other` for any different type. -/
inductive GoVal where
  | float (x : ℚ)
  | vec2 (v : Vector2D)
  | scareType (t : ScareEventType)
  | creature
  | str (s : String)
  | other
deriving DecidableEq

/-- Model of `event.EventData`: the polymorphic event payload record. -/
structure EventData where
  Source : Option GoVal
  Target : Option GoVal
  Position : Option GoVal
  Value : Option GoVal
  Timestamp : ℚ
  Custom : List (String × GoVal)
deriving DecidableEq

/-- Model of `ai.PlayerAction`: one recorded player action.  The Go field
`Type` is rendered `Type'` because `Type` is a Lean keyword.  The context
map entries carry `Option GoVal` because `recordDamage` stores the
possibly-nil `data.Value` under the `damageAmount` key. -/
structure PlayerAction where
  Type' : ActionType
  Position : Vector2D
  Direction : Vector2D
  Target : Option GoVal
  Timestamp : ℚ
  Context : List (String × Option GoVal)
deriving DecidableEq

/-- Model of `ai.FearResponse`: one recorded reaction to a fear stimulus. -/
structure FearResponse where
  FearType : FearType
  StrengthOfFear : ℚ
  ActionsTaken : List ActionType
  SanityLoss : ℚ
  HeartRateChange : ℚ
  ReactionTime : ℚ
  DistanceMoved : ℚ
deriving DecidableEq

/-- Model of `ai.ObservationContext` (the `NearbyCreatures` slice, unused by
any code under verification, is omitted). -/
structure ObservationContext where
  LightLevel : ℚ
  OpenSpace : ℚ
  NearbyExits : ℕ
  TimeSinceLastScare : ℚ
  CurrentSanity : ℚ
  RecentSanityLoss : ℚ
deriving DecidableEq

/-- Model of `entity.Player` (fields used by the verified code). -/
structure Player where
  Position : Vector2D
  Direction : ℚ
  Health : ℚ
  Sanity : ℚ
deriving DecidableEq

/-- Model of the mutable state of `ai.ObserverSystem`: the action history,
the per-kind fear-response histories, the two profiles and the context. -/
structure ObserverSystem where
  player : Player
  playerActions : List PlayerAction
  fearResponses : FearType → List FearResponse
  reactorProfile : ReactorType → ℚ
  fearProfile : FearType → ℚ
  context : ObservationContext

/-- The nine fear kinds in the iteration order of the source loops
(`for fearType := FearDarkness; fearType <= FearUnknown; fearType++`). -/
def allFearTypes : List FearType :=
  [.darkness, .creatures, .suddenNoises, .isolation, .chasing,
   .gore, .claustrophobia, .openSpaces, .unknown]

/-- The six reactor archetypes in source order. -/
def allReactorTypes : List ReactorType :=
  [.cautious, .bold, .panic, .methodical, .reckless, .hesitant]

/-- Append an element to a bounded history: `append` followed by the Go
re-slicing `s = s[len(s)-cap:]` when the capacity is exceeded.  This is the
common shape of `ObserverSystem.addPlayerAction` (cap 1000) and
`ObserverSystem.recordFearResponse` (cap 20 per fear kind). -/
def appendBounded (cap : ℕ) (l : List α) (a : α) : List α :=
  let t := l ++ [a]
  if t.length > cap then t.drop (t.length - cap) else t

/-- Model of `ObserverSystem.addPlayerAction`: append to the action history,
keeping at most the 1000 most recent entries. -/
def addPlayerAction (o : ObserverSystem) (action : PlayerAction) : ObserverSystem :=
  { o with playerActions := appendBounded 1000 o.playerActions action }

/-- Model of `ObserverSystem.recordFearResponse`: append to the per-kind
response history, keeping at most the 20 most recent entries of that kind. -/
def recordFearResponse (o : ObserverSystem) (response : FearResponse) : ObserverSystem :=
  { o with fearResponses := fun ft =>
      if ft = response.FearType then
        appendBounded 20 (o.fearResponses response.FearType) response
      else o.fearResponses ft }

theorem appendBounded_of_lt (cap : ℕ) (l : List α) (a : α)
    (h : l.length < cap) : appendBounded cap l a = l ++ [a] := by
  unfold appendBounded
  rw [if_neg]
  simp only [List.length_append, List.length_singleton]
  omega

theorem appendBounded_full (cap : ℕ) (l : List α) (a : α)
    (hcap : 0 < cap) (h : l.length = cap) :
    appendBounded cap l a = l.tail ++ [a] := by
  unfold appendBounded
  rw [if_pos (by simp only [List.length_append, List.length_singleton]; omega)]
  have h1 : (l ++ [a]).length - cap = 1 := by
    simp only [List.length_append, List.length_singleton]; omega
  rw [h1]
  cases l with
  | nil => simp at h; omega
  | cons x xs => simp

theorem appendBounded_length_le (cap : ℕ) (l : List α) (a : α)
    (h : l.length ≤ cap) : (appendBounded cap l a).length ≤ cap := by
  unfold appendBounded
  by_cases hb : (l ++ [a]).length > cap
  · simp only [hb, if_pos, List.length_drop]
    omega
  · simp only [List.length_append, List.length_singleton] at hb
    rw [if_neg (by simp only [List.length_append, List.length_singleton]; omega)]
    simp only [List.length_append, List.length_singleton]
    omega

/-- Folding bounded insertion over a batch of inserts keeps exactly the
most recent `cap` elements: starting from any in-capacity state `s`, the
result is the suffix of `s ++ l` past position `s.length + l.length - cap`. -/
theorem foldl_appendBounded (cap : ℕ) (hcap : 0 < cap) :
    ∀ (l : List α) (s : List α), s.length ≤ cap →
      List.foldl (appendBounded cap) s l = (s ++ l).drop (s.length + l.length - cap) := by
  intro l
  induction l with
  | nil =>
    intro s hs
    simp only [List.foldl_nil, List.append_nil, List.length_nil, Nat.add_zero]
    rw [Nat.sub_eq_zero_of_le hs, List.drop_zero]
  | cons a t ih =>
    intro s hs
    rw [List.foldl_cons]
    by_cases hlt : s.length < cap
    · rw [appendBounded_of_lt cap s a hlt]
      rw [ih (s ++ [a]) (by simp only [List.length_append, List.length_singleton]; omega)]
      have hl : s ++ [a] ++ t = s ++ a :: t := by simp
      have hn : (s ++ [a]).length + t.length - cap = s.length + (a :: t).length - cap := by
        simp only [List.length_append, List.length_singleton, List.length_cons,
          List.length_nil]
        omega
      rw [hl, hn]
    · have hslen : s.length = cap := by omega
      rw [appendBounded_full cap s a hcap hslen]
      cases s with
      | nil => simp at hslen; omega
      | cons x s' =>
        simp only [List.tail_cons]
        rw [ih (s' ++ [a]) (by
          simp only [List.length_append, List.length_singleton]
          simp only [List.length_cons] at hslen
          omega)]
        have h2 : (s' ++ [a]).length + t.length - cap = t.length := by
          simp only [List.length_append, List.length_singleton]
          simp only [List.length_cons] at hslen
          omega
        have h3 : (x :: s').length + (a :: t).length - cap = t.length + 1 := by
          simp only [List.length_cons]
          simp only [List.length_cons] at hslen
          omega
        rw [h2, h3]
        have h4 : (x :: s') ++ a :: t = x :: (s' ++ [a] ++ t) := by simp
        rw [h4, List.drop_succ_cons]

/-- Model of `ObserverSystem.determineFearType`: a creature source maps to
the creatures fear, anything else to the unknown fear. -/
def determineFearType (source : GoVal) : FearType :=
  match source with
  | .creature => .creatures
  | _ => .unknown

/-- Payload test used by `recordMovement`: the event carries a position and
the type assertion to `entity.Vector2D` succeeds. -/
def hasValidPosition (data : EventData) : Bool :=
  match data.Position with
  | some (.vec2 _) => true
  | _ => false

/-- Payload test used by `recordSanityChange`: the event carries a value and
the type assertion to `float64` succeeds. -/
def hasFloatValue (data : EventData) : Bool :=
  match data.Value with
  | some (.float _) => true
  | _ => false

/-- Model of `ObserverSystem.recordMovement`: validates the position payload
(returning the state unchanged on a missing or mistyped position), reads the
previous position from the custom data (zero vector when absent or
mistyped), classifies the action as a run when a float speed value above
1.5 is present, and appends the action to the bounded history. -/
def recordMovement (o : ObserverSystem) (data : EventData) : ObserverSystem :=
  match data.Position with
  | none => o
  | some pv =>
    match pv with
    | .vec2 position =>
      let oldPosition : Vector2D :=
        match data.Custom.lookup "oldPosition" with
        | some (.vec2 v) => v
        | _ => ⟨0, 0⟩
      let direction : Vector2D :=
        ⟨position.X - oldPosition.X, position.Y - oldPosition.Y⟩
      let actionType : ActionType :=
        match data.Value with
        | some (.float speed) => if speed > 3/2 then .run else .move
        | _ => .move
      addPlayerAction o ⟨actionType, position, direction, none, data.Timestamp, []⟩
    | _ => o

/-- Model of `ObserverSystem.recordSanityChange`: validates the float value
payload (returning the state unchanged on a missing or mistyped value) and,
when sanity decreased, records a fear response of strength `|Δ| / 20` for
the fear kind derived from the event source. -/
def recordSanityChange (o : ObserverSystem) (data : EventData) : ObserverSystem :=
  match data.Value with
  | none => o
  | some vv =>
    match vv with
    | .float sanityChange =>
      if sanityChange < 0 then
        let oldValue : ℚ :=
          match data.Custom.lookup "oldValue" with
          | some (.float x) => x
          | _ => 0
        let newValue : ℚ :=
          match data.Custom.lookup "newValue" with
          | some (.float x) => x
          | _ => 0
        let fearType : FearType :=
          match data.Source with
          | some s => determineFearType s
          | none => .unknown
        recordFearResponse o ⟨fearType, |sanityChange| / 20, [], oldValue - newValue, 0, 0, 0⟩
      else o
    | _ => o

/-- Model of `ObserverSystem.recordDamage`: validates that the event has a
damage source (returning the state unchanged on a nil source) and records a
freeze action at the player's position, carrying the source as target and
the raw damage value in the action context. -/
def recordDamage (o : ObserverSystem) (data : EventData) : ObserverSystem :=
  match data.Source with
  | none => o
  | some source =>
    addPlayerAction o ⟨.freeze, o.player.Position, ⟨0, 0⟩, some source, data.Timestamp,
      [("damageAmount", data.Value)]⟩

/-- Model of `ObserverSystem.recordInteraction`: validates that the event
has an interaction target (returning the state unchanged on a nil target)
and records an interact action at the player's position. -/
def recordInteraction (o : ObserverSystem) (data : EventData) : ObserverSystem :=
  match data.Target with
  | none => o
  | some target =>
    addPlayerAction o ⟨.interact, o.player.Position, ⟨0, 0⟩, some target, data.Timestamp, []⟩

/-- Model of `ObserverSystem.mapScareEventToFearType`. -/
def mapScareEventToFearType (scareType : ScareEventType) : FearType :=
  match scareType with
  | .ambientSound => .isolation
  | .suddenNoise => .suddenNoises
  | .creatureAppearance => .creatures
  | .environmentChange => .unknown
  | .hallucination => .isolation
  | .whisper => .isolation

/-- Payload test used by `recordScareResponse`: the custom data holds a
`scareType` entry and its type assertion to `ScareEventType` succeeds.  The
Go checks `data.Custom == nil || data.Custom["scareType"] == nil` collapse
to a failed lookup here, since a lookup in a nil map returns nil. -/
def hasValidScareType (data : EventData) : Bool :=
  match data.Custom.lookup "scareType" with
  | some (.scareType _) => true
  | _ => false

/-- Model of `ObserverSystem.recordScareResponse`: validates the scare-type
payload (returning the state unchanged when the `scareType` entry is
missing, nil or mistyped), records a fear response whose strength is the
float value of the event (0.5 when missing or mistyped) for the fear kind
mapped from the scare kind, and resets the time since the last scare. -/
def recordScareResponse (o : ObserverSystem) (data : EventData) : ObserverSystem :=
  match data.Custom.lookup "scareType" with
  | none => o
  | some sv =>
    match sv with
    | .scareType scareType =>
      let fearType := mapScareEventToFearType scareType
      let intensity : ℚ :=
        match data.Value with
        | some (.float val) => val
        | _ => 1/2
      let o := recordFearResponse o
        ⟨fearType, intensity, [], o.context.RecentSanityLoss, 0, 0, 0⟩
      { o with context := { o.context with TimeSinceLastScare := 0 } }
    | _ => o

/-- Model of the profile initialization loops in the observer start-up
method: every fear kind and every reactor kind starts at the neutral
value 0.5 (the event subscriptions have no observable state here). -/
def initProfiles (o : ObserverSystem) : ObserverSystem :=
  { o with fearProfile := fun _ => 1/2, reactorProfile := fun _ => 1/2 }

/-- Model of `ObserverSystem.analyzeFearProfile`: when at least one response
history is non-empty, every fear kind with a non-empty history gets the EMA
update `old*0.7 + mean(strengths)*0.3`; kinds with an empty history keep
their value.  The Go guard `len(o.fearResponses) == 0` (map emptiness) is
modelled as all per-kind histories being empty, which is equivalent because
`recordFearResponse` only ever stores non-empty slices under a key. -/
def analyzeFearProfile (o : ObserverSystem) : ObserverSystem :=
  if allFearTypes.all fun ft => (o.fearResponses ft).isEmpty then o
  else
    { o with fearProfile := fun fearType =>
        let responses := o.fearResponses fearType
        if responses.isEmpty then o.fearProfile fearType
        else
          let totalStrength := (responses.map FearResponse.StrengthOfFear).sum
          let avgStrength := totalStrength / (responses.length : ℚ)
          o.fearProfile fearType * (7/10) + avgStrength * (3/10) }

/-- Minimum of the six reactor-profile values, as computed by the
min-tracking loop of `normalizeProfile` (the `math.MaxFloat64` sentinel
start is modelled by starting the fold from the first value). -/
def profileMin (profile : ReactorType → ℚ) : ℚ :=
  List.foldl min (profile .cautious) (allReactorTypes.map profile)

/-- Maximum of the six reactor-profile values, as computed by the
max-tracking loop of `normalizeProfile`. -/
def profileMax (profile : ReactorType → ℚ) : ℚ :=
  List.foldl max (profile .cautious) (allReactorTypes.map profile)

/-- Model of `normalizeProfile`: min-max normalization of the reactor
profile into [0,1]; when all values are equal every entry becomes 0.5. -/
def normalizeProfile (profile : ReactorType → ℚ) : ReactorType → ℚ :=
  let mn := profileMin profile
  let mx := profileMax profile
  fun key => if mx > mn then (profile key - mn) / (mx - mn) else 1/2

/-- Count of actions of one kind in the history (the counting loop of
`analyzeReactorProfile`). -/
def countActions (actions : List PlayerAction) (t : ActionType) : ℕ :=
  actions.countP fun a => a.Type' = t

/-- The six raw reactor scores of `analyzeReactorProfile`, before
normalization.  Go computes the numerators in `int` arithmetic and then
converts; over `ℚ` this is the same value. -/
def rawReactorProfile (actions : List PlayerAction) : ReactorType → ℚ :=
  let moveCount := countActions actions .move
  let runCount := countActions actions .run
  let hideCount := countActions actions .hide
  let interactCount := countActions actions .interact
  let attackCount := countActions actions .attack
  let investigateCount := countActions actions .investigate
  let retreatCount := countActions actions .retreat
  let freezeCount := countActions actions .freeze
  let totalActions : ℚ := (actions.length : ℚ)
  fun rt =>
    match rt with
    | .cautious => ((hideCount : ℚ) + (retreatCount : ℚ) - (attackCount : ℚ)) / totalActions
    | .bold => ((attackCount : ℚ) + (investigateCount : ℚ) - (hideCount : ℚ)) / totalActions
    | .panic => ((runCount : ℚ) + (freezeCount : ℚ)) / totalActions
    | .methodical => ((investigateCount : ℚ) + (interactCount : ℚ)) / totalActions
    | .reckless => ((runCount : ℚ) + (attackCount : ℚ) - (hideCount : ℚ)) / totalActions
    | .hesitant => ((freezeCount : ℚ) - (interactCount : ℚ)) / totalActions

/-- Model of `ObserverSystem.analyzeReactorProfile`: with fewer than 10
recorded actions the profile is left untouched; otherwise the raw scores
are recomputed from the full action history and min-max normalized. -/
def analyzeReactorProfile (o : ObserverSystem) : ObserverSystem :=
  if o.playerActions.length < 10 then o
  else { o with reactorProfile := normalizeProfile (rawReactorProfile o.playerActions) }

theorem foldl_min_le_init [LinearOrder α] (l : List α) :
    ∀ x : α, List.foldl min x l ≤ x := by
  induction l with
  | nil => intro x; exact le_refl x
  | cons a t ih =>
    intro x
    exact le_trans (ih (min x a)) (min_le_left x a)

theorem foldl_min_le_mem [LinearOrder α] (l : List α) :
    ∀ (x y : α), y ∈ l → List.foldl min x l ≤ y := by
  induction l with
  | nil => intro x y h; cases h
  | cons a t ih =>
    intro x y h
    rcases List.mem_cons.mp h with h | h
    · subst h
      exact le_trans (foldl_min_le_init t (min x y)) (min_le_right x y)
    · exact ih (min x a) y h

theorem foldl_min_choice [LinearOrder α] (l : List α) :
    ∀ x : α, List.foldl min x l = x ∨ List.foldl min x l ∈ l := by
  induction l with
  | nil => intro x; left; rfl
  | cons a t ih =>
    intro x
    rcases ih (min x a) with h | h
    · rcases min_choice x a with hm | hm
      · left; rw [List.foldl_cons, h, hm]
      · right; rw [List.foldl_cons, h, hm]; exact List.mem_cons_self a t
    · right; rw [List.foldl_cons]; exact List.mem_cons_of_mem a h

theorem foldl_max_ge_init [LinearOrder α] (l : List α) :
    ∀ x : α, x ≤ List.foldl max x l := by
  induction l with
  | nil => intro x; exact le_refl x
  | cons a t ih =>
    intro x
    exact le_trans (le_max_left x a) (ih (max x a))

theorem foldl_max_ge_mem [LinearOrder α] (l : List α) :
    ∀ (x y : α), y ∈ l → y ≤ List.foldl max x l := by
  induction l with
  | nil => intro x y h; cases h
  | cons a t ih =>
    intro x y h
    rcases List.mem_cons.mp h with h | h
    · subst h
      exact le_trans (le_max_right x y) (foldl_max_ge_init t (max x y))
    · exact ih (max x a) y h

theorem foldl_max_choice [LinearOrder α] (l : List α) :
    ∀ x : α, List.foldl max x l = x ∨ List.foldl max x l ∈ l := by
  induction l with
  | nil => intro x; left; rfl
  | cons a t ih =>
    intro x
    rcases ih (max x a) with h | h
    · rcases max_choice x a with hm | hm
      · left; rw [List.foldl_cons, h, hm]
      · right; rw [List.foldl_cons, h, hm]; exact List.mem_cons_self a t
    · right; rw [List.foldl_cons]; exact List.mem_cons_of_mem a h

theorem mem_allReactorTypes (k : ReactorType) : k ∈ allReactorTypes := by
  cases k <;> simp [allReactorTypes]

theorem profileMin_le (profile : ReactorType → ℚ) (k : ReactorType) :
    profileMin profile ≤ profile k :=
  foldl_min_le_mem _ _ _ (List.mem_map_of_mem profile (mem_allReactorTypes k))

theorem le_profileMax (profile : ReactorType → ℚ) (k : ReactorType) :
    profile k ≤ profileMax profile :=
  foldl_max_ge_mem _ _ _ (List.mem_map_of_mem profile (mem_allReactorTypes k))

theorem profileMin_attained (profile : ReactorType → ℚ) :
    ∃ k, profileMin profile = profile k := by
  rcases foldl_min_choice (allReactorTypes.map profile) (profile .cautious) with h | h
  · exact ⟨.cautious, h⟩
  · rcases List.mem_map.mp h with ⟨k, _, hk⟩
    exact ⟨k, hk.symm⟩

theorem profileMax_attained (profile : ReactorType → ℚ) :
    ∃ k, profileMax profile = profile k := by
  rcases foldl_max_choice (allReactorTypes.map profile) (profile .cautious) with h | h
  · exact ⟨.cautious, h⟩
  · rcases List.mem_map.mp h with ⟨k, _, hk⟩
    exact ⟨k, hk.symm⟩

/-- Model of `common.ScareEvent`.  The Go field `Type` is rendered `Type'`
because `Type` is a Lean keyword. -/
structure ScareEvent where
  Type' : ScareEventType
  Intensity : ℚ
  Position : Vector2D
  Duration : ℚ
  CreatureType : String
  Timestamp : ℚ
deriving DecidableEq

/-- Model of the state of `ai.Director` (part of the observer file) that
the verified methods read and write. -/
structure Director where
  player : Player
  tension : ℚ
  mood : ℚ
  scareHistory : List ScareEvent

/-- Model of `Director.shouldCreateScareEvent`.  The wall-clock reading
`time.Since(lastScare.Timestamp)` is modelled by passing the current time
`now`, and the draw `rand.Float64()` by passing `draw`. -/
def shouldCreateScareEvent (d : Director) (now draw : ℚ) : Bool :=
  let baseChance := d.tension * (1/10)
  let baseChance :=
    match d.scareHistory.getLast? with
    | some lastScare =>
      let timeSinceLast := now - lastScare.Timestamp
      let c := if timeSinceLast > 30 then baseChance + 1/10 else baseChance
      if timeSinceLast > 60 then c + 2/10 else c
    | none => baseChance + 3/10
  draw < baseChance

/-- Model of `entity.Player.ReduceSanity`: subtract, then clamp at zero. -/
def ReduceSanity (p : Player) (amount : ℚ) : Player :=
  let s := p.Sanity - amount
  { p with Sanity := if s < 0 then 0 else s }

/-- One of the two world-mutation effects the director may dispatch. -/
inductive WorldEffect where
  | spawnCreature (kind : String) (position : Vector2D)
  | modifyEnvironment (position : Vector2D) (intensity : ℚ)
deriving DecidableEq

/-- Model of `Director.executeScareEvent`: append the event to the scare
history, dispatch the per-kind world effect, and always reduce the player's
sanity by `intensity * 5`. -/
def executeScareEvent (d : Director) (event : ScareEvent) : Director × List WorldEffect :=
  let d := { d with scareHistory := d.scareHistory ++ [event] }
  let effects : List WorldEffect :=
    match event.Type' with
    | .creatureAppearance => [.spawnCreature event.CreatureType event.Position]
    | .environmentChange => [.modifyEnvironment event.Position event.Intensity]
    | _ => []
  ({ d with player := ReduceSanity d.player (event.Intensity * 5) }, effects)

/-- Model of `ai.ScareRecommendation`.  All fields are rational except the
priority, which involves `math.Exp` and is modelled over `ℝ`. -/
structure ScareRecommendation where
  ScareType : ScareEventType
  FearTarget : FearType
  Intensity : ℚ
  Position : Vector2D
  Timing : ℚ
  Priority : ℝ

/-- Model of `ObserverSystem.chooseScareTypeForFearType`; the random index
drawn for the unknown fear is passed in as `rnd`. -/
def chooseScareTypeForFearType (rnd : ℕ) (fearType : FearType) : ScareEventType :=
  match fearType with
  | .darkness => .environmentChange
  | .creatures => .creatureAppearance
  | .suddenNoises => .suddenNoise
  | .isolation => .whisper
  | .chasing => .creatureAppearance
  | .gore => .hallucination
  | .claustrophobia => .environmentChange
  | .openSpaces => .creatureAppearance
  | .unknown =>
    let eventTypes : List ScareEventType :=
      [.ambientSound, .suddenNoise, .creatureAppearance, .environmentChange,
       .hallucination, .whisper]
    eventTypes.getD (rnd % eventTypes.length) .ambientSound

/-- Model of `ObserverSystem.generateRecommendationForFearType`: the
intensity is the fear-profile value scaled by the sanity deficit and
clamped into [0.3, 1.0]; the priority mixes the profile value with an
exponential time factor; the timing is 30s within 30s of the last scare
and 10s otherwise. -/
noncomputable def generateRecommendationForFearType (o : ObserverSystem) (rnd : ℕ)
    (fearType : FearType) : ScareRecommendation :=
  let scareType := chooseScareTypeForFearType rnd fearType
  let intensity := o.fearProfile fearType * (1 + (1 - o.context.CurrentSanity / 100))
  let intensity := max (3/10) (min 1 intensity)
  let timeFactor : ℝ := 1 - Real.exp (-(o.context.TimeSinceLastScare : ℝ) / 60)
  let priority : ℝ := (o.fearProfile fearType : ℝ) * (1/2 + timeFactor * (1/2))
  let timing : ℚ := if o.context.TimeSinceLastScare < 30 then 30 else 10
  ⟨scareType, fearType, intensity, o.player.Position, timing, priority⟩

/-- Insertion into a sorted list under a boolean "goes before" relation;
used to model the comparison sorts done with Go `sort.Slice`. -/
def insertBy (le : α → α → Bool) (a : α) : List α → List α
  | [] => [a]
  | b :: t => if le a b then a :: b :: t else b :: insertBy le a t

/-- Insertion sort under a boolean "goes before" relation; models the
(otherwise unspecified) comparison sort of Go `sort.Slice`. -/
def sortBy (le : α → α → Bool) : List α → List α
  | [] => []
  | a :: t => insertBy le a (sortBy le t)

theorem mem_insertBy (le : α → α → Bool) (a x : α) :
    ∀ l : List α, x ∈ insertBy le a l ↔ x = a ∨ x ∈ l := by
  intro l
  induction l with
  | nil => simp [insertBy]
  | cons b t ih =>
    unfold insertBy
    by_cases h : le a b
    · simp [h]
    · simp only [h, Bool.false_eq_true, if_false, List.mem_cons, ih]
      tauto

theorem mem_sortBy (le : α → α → Bool) (x : α) :
    ∀ l : List α, x ∈ sortBy le l ↔ x ∈ l := by
  intro l
  induction l with
  | nil => simp [sortBy]
  | cons a t ih =>
    unfold sortBy
    rw [mem_insertBy, ih, List.mem_cons]

/-- Model of `ObserverSystem.getEffectiveFearTypes`: all fear kinds sorted
by descending fear-profile value, truncated to the top 3. -/
def getEffectiveFearTypes (o : ObserverSystem) : List FearType :=
  (sortBy (fun i j => o.fearProfile j ≤ o.fearProfile i) allFearTypes).take 3

/-- Model of `ObserverSystem.GenerateScareRecommendations`: the previous
recommendation list is discarded, one recommendation is generated per
effective fear kind, and the result is sorted by descending priority. -/
noncomputable def GenerateScareRecommendations (o : ObserverSystem) (rnd : ℕ) :
    List ScareRecommendation :=
  let recs := (getEffectiveFearTypes o).map (generateRecommendationForFearType o rnd)
  sortBy (fun i j => @decide (j.Priority ≤ i.Priority) (Classical.propDecidable _)) recs

/-- Model of `ai.PlayerPattern` (analyzer.go). -/
structure PlayerPattern where
  Name : String
  Description : String
  Weight : ℚ
deriving DecidableEq

/-- Model of `ai.MovementAnalysis` (analyzer.go). -/
structure MovementAnalysis where
  AverageSpeed : ℚ
  DirectionChanges : ℕ
  ExplorationArea : ℚ
  PathRepetition : ℚ
  PreferredAreas : List Vector2D
deriving DecidableEq

/-- Model of `ai.InteractionAnalysis` (analyzer.go); the per-scare-kind
response map is modelled as an association list with distinct keys. -/
structure InteractionAnalysis where
  InteractionRate : ℚ
  PreferredInteractions : List (String × ℕ)
  ResponseToScareEvents : List (ScareEventType × ℚ)
  HealthLossRate : ℚ
  SanityLossRate : ℚ
deriving DecidableEq

/-- Model of `Analyzer.addPattern`: if an entry with the same name exists,
its weight becomes the average of old and new; otherwise the pattern is
appended at the end. -/
def addPattern (l : List PlayerPattern) (pattern : PlayerPattern) : List PlayerPattern :=
  match l with
  | [] => [pattern]
  | p :: rest =>
    if p.Name = pattern.Name then
      { p with Weight := (p.Weight + pattern.Weight) / 2 } :: rest
    else p :: addPattern rest pattern

/-- Model of `Analyzer.detectMovementPatterns`: four threshold rules over
the movement analysis. -/
def detectMovementPatterns (m : MovementAnalysis) (l : List PlayerPattern) :
    List PlayerPattern :=
  let l :=
    if m.ExplorationArea > 500 ∧ m.PathRepetition < 2 then
      addPattern l ⟨"explorer", "Игрок активно исследует мир, не задерживаясь на одном месте",
        8/10 - m.PathRepetition / 10⟩
    else l
  let l :=
    if m.AverageSpeed < 3/2 ∧ m.DirectionChanges > 30 then
      addPattern l ⟨"cautious", "Игрок осторожен, медленно двигается и часто меняет направление",
        9/10 - m.AverageSpeed / 3⟩
    else l
  let l :=
    if m.AverageSpeed > 2 ∧ m.DirectionChanges < 15 then
      addPattern l ⟨"determined", "Игрок быстро движется в выбранном направлении",
        7/10 + m.AverageSpeed / 5⟩
    else l
  if m.ExplorationArea < 200 ∧ m.PathRepetition > 3 then
    addPattern l ⟨"indecisive", "Игрок нерешителен, часто возвращается в одни и те же места",
      6/10 + m.PathRepetition / 5⟩
  else l

/-- Model of `Analyzer.detectInteractionPatterns`: two threshold rules over
the interaction rate. -/
def detectInteractionPatterns (ia : InteractionAnalysis) (l : List PlayerPattern) :
    List PlayerPattern :=
  let l :=
    if ia.InteractionRate > 3/10 then
      addPattern l ⟨"interactive", "Игрок активно взаимодействует с окружением",
        7/10 + ia.InteractionRate⟩
    else l
  if ia.InteractionRate < 1/10 then
    addPattern l ⟨"passive", "Игрок редко взаимодействует с окружением",
      6/10 + (1/10 - ia.InteractionRate)⟩
  else l

/-- Model of `Analyzer.detectFearResponsePatterns`: rules over the average
scare response and over the responses to two specific scare kinds. -/
def detectFearResponsePatterns (ia : InteractionAnalysis) (l : List PlayerPattern) :
    List PlayerPattern :=
  let count := ia.ResponseToScareEvents.length
  let l :=
    if count > 0 then
      let avgResponse := (ia.ResponseToScareEvents.map Prod.snd).sum / (count : ℚ)
      let l :=
        if avgResponse < 3/10 then
          addPattern l ⟨"fearless", "Игрок слабо реагирует на пугающие события",
            8/10 - avgResponse⟩
        else l
      if avgResponse > 7/10 then
        addPattern l ⟨"easily_scared", "Игрок сильно реагирует на пугающие события",
          7/10 + avgResponse⟩
      else l
    else l
  let l :=
    match ia.ResponseToScareEvents.lookup .suddenNoise with
    | some response =>
      if response > 8/10 then
        addPattern l ⟨"startles_easily", "Игрок особенно чувствителен к внезапным звукам",
          7/10 + response⟩
      else l
    | none => l
  match ia.ResponseToScareEvents.lookup .creatureAppearance with
  | some response =>
    if response > 8/10 then
      addPattern l ⟨"monster_phobia", "Игрок особенно боится встреч с существами",
        7/10 + response⟩
    else l
  | none => l

/-- Model of `Analyzer.detectPatterns`: the previous detected-pattern list
is discarded (`a.detectedPatterns = []PlayerPattern{}`), the three detector
groups run in order, and the result is sorted by descending weight. -/
def detectPatterns (m : MovementAnalysis) (ia : InteractionAnalysis)
    (previous : List PlayerPattern) : List PlayerPattern :=
  sortBy (fun i j => j.Weight ≤ i.Weight)
    (detectFearResponsePatterns ia (detectInteractionPatterns ia (detectMovementPatterns m [])))

/-- Initial player state as constructed by `entity.NewPlayer`. -/
def basePlayer : Player := ⟨⟨128, 128⟩, 0, 100, 100⟩

/-- Initial observation context as constructed by `NewObserverSystem`. -/
def baseContext : ObservationContext := ⟨1/2, 1/2, 2, 60, 100, 0⟩

/-- Initial observer state as constructed by `NewObserverSystem` followed by
the profile initialization (empty histories, neutral profiles). -/
def obsW : ObserverSystem :=
  ⟨basePlayer, [], fun _ => [], fun _ => 1/2, fun _ => 1/2, baseContext⟩

/-- Base chance of the trigger decision as worded by the spec:
`tension*0.1`, plus `0.1` when the time since the last fired scare exceeds
30s and a further `0.2` when it exceeds 60s (cumulative), or plus `0.3`
instead of the time-based bonuses when no scare has ever fired. -/
def specBaseChance (d : Director) (now : ℚ) : ℚ :=
  d.tension * (1/10) +
    match d.scareHistory.getLast? with
    | none => 3/10
    | some lastScare =>
      (if now - lastScare.Timestamp > 30 then 1/10 else 0) +
      (if now - lastScare.Timestamp > 60 then 2/10 else 0)

/-- C1: the director's trigger decision fires exactly when the uniform draw
is below `tension*0.1` plus the time-based bonuses (`+0.1` past 30s, a
further `+0.2` past 60s) or plus `+0.3` when no scare has ever fired; with
tension `0.5` and an empty scare history the base chance is `0.35`, so a
draw of `0.30` fires and a draw of `0.40` does not. -/
theorem C1_shouldCreateScareEvent_spec :
    (∀ (d : Director) (now draw : ℚ),
      shouldCreateScareEvent d now draw = true ↔ draw < specBaseChance d now) ∧
    (∀ (p : Player) (mood now : ℚ),
      specBaseChance ⟨p, 1/2, mood, []⟩ now = 7/20 ∧
      shouldCreateScareEvent ⟨p, 1/2, mood, []⟩ now (3/10) = true ∧
      shouldCreateScareEvent ⟨p, 1/2, mood, []⟩ now (2/5) = false) := by
  constructor
  · intro d now draw
    unfold shouldCreateScareEvent specBaseChance
    cases h : d.scareHistory.getLast? with
    | none => simp [h]
    | some lastScare =>
      by_cases h30 : now - lastScare.Timestamp > 30 <;>
        by_cases h60 : now - lastScare.Timestamp > 60 <;>
          simp only [h, h30, h60, if_pos, if_neg, not_false_iff, decide_eq_true_eq] <;>
            constructor <;> intro <;> linarith
  · intro p mood now
    refine ⟨?_, ?_, ?_⟩
    · unfold specBaseChance
      norm_num
    · unfold shouldCreateScareEvent
      norm_num
    · unfold shouldCreateScareEvent
      norm_num

/-- C10: `ReduceSanity` sets the sanity to `max 0 (sanity - amount)` for
every amount, and executing a scare event of any intensity (which always
reduces sanity by `intensity * 5`) leaves the player's sanity at least 0. -/
theorem C10_sanity_never_negative :
    (∀ (p : Player) (amount : ℚ),
      (ReduceSanity p amount).Sanity = max 0 (p.Sanity - amount)) ∧
    (∀ (d : Director) (event : ScareEvent),
      0 ≤ ((executeScareEvent d event).1.player.Sanity)) := by
  have hmax : ∀ (p : Player) (amount : ℚ),
      (ReduceSanity p amount).Sanity = max 0 (p.Sanity - amount) := by
    intro p amount
    show (if p.Sanity - amount < 0 then (0:ℚ) else p.Sanity - amount) = max 0 (p.Sanity - amount)
    by_cases h : p.Sanity - amount < 0
    · rw [if_pos h, max_eq_left (le_of_lt h)]
    · rw [if_neg h]
      push_neg at h
      exact (max_eq_right h).symm
  refine ⟨hmax, ?_⟩
  intro d event
  show 0 ≤ (ReduceSanity _ (event.Intensity * 5)).Sanity
  rw [hmax]
  exact le_max_left 0 _

/-- C8: an event whose payload fails the defensive checks is a silent
no-op for every one of the five subscribed handlers: `recordMovement` when
the position is missing or not a `Vector2D`, `recordDamage` when the source
is nil, `recordSanityChange` when the value is missing or not a float,
`recordInteraction` when the target is nil, and `recordScareResponse` when
the `scareType` custom entry is missing, nil or not a `ScareEventType`.
In each case the whole observer state — action history, fear-response
histories and observation context — is unchanged, and the handlers are
total functions, so no error can be raised or propagated. -/
theorem C8_malformed_payload_noop :
    ∀ (o : ObserverSystem) (data : EventData),
      (hasValidPosition data = false → recordMovement o data = o) ∧
      (data.Source = none → recordDamage o data = o) ∧
      (hasFloatValue data = false → recordSanityChange o data = o) ∧
      (data.Target = none → recordInteraction o data = o) ∧
      (hasValidScareType data = false → recordScareResponse o data = o) := by
  intro o data
  obtain ⟨src, tgt, pos, val, ts, custom⟩ := data
  refine ⟨?_, ?_, ?_, ?_, ?_⟩
  · intro h
    cases pos with
    | none => rfl
    | some v =>
      cases v <;> first
        | rfl
        | (exfalso; simp [hasValidPosition] at h)
  · intro h
    simp only at h
    rw [h]
    rfl
  · intro h
    cases val with
    | none => rfl
    | some v =>
      cases v <;> first
        | rfl
        | (exfalso; simp [hasFloatValue] at h)
  · intro h
    simp only at h
    rw [h]
    rfl
  · intro h
    simp only [hasValidScareType] at h
    simp only [recordScareResponse]
    cases hsc : List.lookup "scareType" custom with
    | none => rfl
    | some sv =>
      rw [hsc] at h
      cases sv <;> first
        | rfl
        | (exfalso; simp at h)

/-- Malformed event used to witness C8: nil source and target, a position
slot of the wrong dynamic type, a string in the value slot, and no
`scareType` entry in the custom data. -/
def badEvent : EventData := ⟨none, none, some .other, some (.str "x"), 0, []⟩

theorem C8_witness :
    recordMovement obsW badEvent = obsW ∧ recordDamage obsW badEvent = obsW ∧
    recordSanityChange obsW badEvent = obsW ∧ recordInteraction obsW badEvent = obsW ∧
    recordScareResponse obsW badEvent = obsW :=
  ⟨(C8_malformed_payload_noop obsW badEvent).1 rfl,
   (C8_malformed_payload_noop obsW badEvent).2.1 rfl,
   (C8_malformed_payload_noop obsW badEvent).2.2.1 rfl,
   (C8_malformed_payload_noop obsW badEvent).2.2.2.1 rfl,
   (C8_malformed_payload_noop obsW badEvent).2.2.2.2 rfl⟩

theorem getLast?_appendBounded (cap : ℕ) (hcap : 0 < cap) (l : List α) (a : α) :
    (appendBounded cap l a).getLast? = some a := by
  unfold appendBounded
  by_cases hb : (l ++ [a]).length > cap
  · rw [if_pos hb]
    have hle : (l ++ [a]).length - cap ≤ l.length := by
      simp only [List.length_append, List.length_singleton]
      omega
    rw [List.drop_append_of_le_length hle]
    simp [List.getLast?_append]
  · rw [if_neg hb]
    simp [List.getLast?_append]

/-- C9: for every well-formed player-moved event (valid position), the
action appended to the history has kind `run` exactly when the event value
is a float strictly greater than 1.5, and kind `move` in every other case. -/
theorem C9_run_iff_speed_above :
    ∀ (o : ObserverSystem) (data : EventData) (p : Vector2D),
      data.Position = some (.vec2 p) →
      (((recordMovement o data).playerActions.getLast?.map PlayerAction.Type' = some .run) ↔
        (∃ s, data.Value = some (.float s) ∧ (3/2 : ℚ) < s)) ∧
      ((recordMovement o data).playerActions.getLast?.map PlayerAction.Type' = some .run ∨
       (recordMovement o data).playerActions.getLast?.map PlayerAction.Type' = some .move) := by
  intro o data p hp
  obtain ⟨src, tgt, pos, val, ts, custom⟩ := data
  simp only at hp
  subst hp
  simp only [recordMovement, addPlayerAction]
  rw [getLast?_appendBounded 1000 (by norm_num)]
  cases val with
  | none => simp
  | some v =>
    cases v with
    | float s =>
      by_cases hs : s > 3/2
      · simp [hs]
      · simp only [Option.map_some, if_neg hs]
        constructor
        · constructor
          · intro h; exact absurd h (by simp)
          · rintro ⟨s', hs', hgt⟩
            obtain rfl : s = s' := by
              simpa using hs'
            exact absurd hgt hs
        · right; rfl
    | vec2 w => simp
    | scareType t => simp
    | creature => simp
    | str s => simp
    | other => simp

/-- Well-formed running-movement event used to witness C9. -/
def runEvent : EventData := ⟨none, none, some (.vec2 ⟨3, 4⟩), some (.float 2), 1, []⟩

theorem C9_witness :
    (recordMovement obsW runEvent).playerActions.getLast?.map PlayerAction.Type' = some .run :=
  ((C9_run_iff_speed_above obsW runEvent ⟨3, 4⟩ rfl).1).mpr ⟨2, rfl, by norm_num⟩

theorem foldl_addPlayerAction_actions :
    ∀ (l : List PlayerAction) (o : ObserverSystem),
      (List.foldl addPlayerAction o l).playerActions =
        List.foldl (appendBounded 1000) o.playerActions l := by
  intro l
  induction l with
  | nil => intro o; rfl
  | cons a t ih =>
    intro o
    rw [List.foldl_cons, List.foldl_cons, ih]
    rfl

theorem foldl_recordFearResponse_responses (k : FearType) :
    ∀ (rs : List FearResponse) (o : ObserverSystem), (∀ r ∈ rs, r.FearType = k) →
      (List.foldl recordFearResponse o rs).fearResponses k =
        List.foldl (appendBounded 20) (o.fearResponses k) rs := by
  intro rs
  induction rs with
  | nil => intro o _; rfl
  | cons r t ih =>
    intro o hall
    have hk : r.FearType = k := hall r (List.mem_cons_self r t)
    rw [List.foldl_cons, List.foldl_cons,
      ih _ (fun x hx => hall x (List.mem_cons_of_mem r hx))]
    have hstep : (recordFearResponse o r).fearResponses k =
        appendBounded 20 (o.fearResponses k) r := by
      simp [recordFearResponse, hk]
    rw [hstep]

/-- C2: the action history and the per-kind fear-response histories are
bounded ring buffers: inserting `N > 1000` actions into an empty observer
keeps exactly the `N - (N - 1000) = 1000` most recent ones, as the suffix
(in original order) of the insertion sequence, and inserting `N > 20`
responses of one kind keeps exactly the 20 most recent ones of that kind;
insertion is a total function, so overflow can never fail. -/
theorem C2_bounded_histories :
    ∀ (l : List PlayerAction) (rs : List FearResponse) (k : FearType) (o : ObserverSystem),
      o.playerActions = [] → (∀ ft, o.fearResponses ft = []) →
      1000 < l.length → 20 < rs.length → (∀ r ∈ rs, r.FearType = k) →
      ((List.foldl addPlayerAction o l).playerActions = l.drop (l.length - 1000) ∧
       (List.foldl addPlayerAction o l).playerActions.length = 1000) ∧
      ((List.foldl recordFearResponse o rs).fearResponses k = rs.drop (rs.length - 20) ∧
       ((List.foldl recordFearResponse o rs).fearResponses k).length = 20) := by
  intro l rs k o hpa hfr hl hrs hall
  have h1 : (List.foldl addPlayerAction o l).playerActions = l.drop (l.length - 1000) := by
    rw [foldl_addPlayerAction_actions, hpa,
      foldl_appendBounded 1000 (by norm_num) l [] (by simp)]
    simp
  have h2 : (List.foldl recordFearResponse o rs).fearResponses k =
      rs.drop (rs.length - 20) := by
    rw [foldl_recordFearResponse_responses k rs o hall, hfr k,
      foldl_appendBounded 20 (by norm_num) rs [] (by simp)]
    simp
  refine ⟨⟨h1, ?_⟩, h2, ?_⟩
  · rw [h1, List.length_drop]; omega
  · rw [h2, List.length_drop]; omega

/-- Single action record used to witness C2. -/
def actW : PlayerAction := ⟨.move, ⟨0, 0⟩, ⟨0, 0⟩, none, 0, []⟩

/-- Single fear response used to witness C2. -/
def respW : FearResponse := ⟨.darkness, 1/2, [], 1, 0, 0, 0⟩

theorem C2_witness :
    (List.foldl addPlayerAction obsW (List.replicate 1001 actW)).playerActions
        = (List.replicate 1001 actW).drop ((List.replicate 1001 actW).length - 1000) ∧
    (List.foldl recordFearResponse obsW (List.replicate 21 respW)).fearResponses .darkness
        = (List.replicate 21 respW).drop ((List.replicate 21 respW).length - 20) := by
  have h := C2_bounded_histories (List.replicate 1001 actW) (List.replicate 21 respW)
    .darkness obsW rfl (fun _ => rfl)
    (by rw [List.length_replicate]; norm_num)
    (by rw [List.length_replicate]; norm_num)
    (by intro r hr; rw [List.eq_of_mem_replicate hr]; rfl)
  exact ⟨h.1.1, h.2.1⟩

theorem analyzeFearProfile_fearResponses (o : ObserverSystem) :
    (analyzeFearProfile o).fearResponses = o.fearResponses := by
  unfold analyzeFearProfile
  by_cases hall : (allFearTypes.all fun ft => (o.fearResponses ft).isEmpty) = true
  · rw [if_pos hall]
  · rw [if_neg hall]

theorem analyzeFearProfile_fearProfile (o : ObserverSystem) (k : FearType) :
    (analyzeFearProfile o).fearProfile k =
      if allFearTypes.all fun ft => (o.fearResponses ft).isEmpty then o.fearProfile k
      else if (o.fearResponses k).isEmpty then o.fearProfile k
      else o.fearProfile k * (7/10) +
        ((o.fearResponses k).map FearResponse.StrengthOfFear).sum /
          ((o.fearResponses k).length : ℚ) * (3/10) := by
  unfold analyzeFearProfile
  by_cases hall : (allFearTypes.all fun ft => (o.fearResponses ft).isEmpty) = true
  · rw [if_pos hall, if_pos hall]
  · rw [if_neg hall, if_neg hall]

/-- Fear response of full strength used for the C3 counterexample. -/
def respStrong : FearResponse := ⟨.unknown, 1, [], 10, 0, 0, 0⟩

/-- C3 counterexample: record one response (strength 1) for the unknown
fear, run one analysis cycle, then run a second cycle without recording
anything new.  The claim says the second cycle leaves the value unchanged;
in fact the code re-applies the EMA over the still-stored responses, moving
the value from 13/20 to 151/200. -/
theorem C3_counterexample :
    (analyzeFearProfile (analyzeFearProfile (recordFearResponse obsW respStrong))).fearProfile
        .unknown
      ≠ (analyzeFearProfile (recordFearResponse obsW respStrong)).fearProfile .unknown := by
  rw [analyzeFearProfile_fearProfile, analyzeFearProfile_fearResponses,
    analyzeFearProfile_fearProfile]
  norm_num [recordFearResponse, obsW, respStrong, appendBounded, allFearTypes]

/-- C3 amended: a fear kind whose stored response history is empty (no
response ever recorded, the history is never cleared between cycles) keeps
its fear-profile value exactly unchanged across an analysis cycle. -/
theorem C3_amended_unchanged_when_no_responses :
    ∀ (o : ObserverSystem) (k : FearType), o.fearResponses k = [] →
      (analyzeFearProfile o).fearProfile k = o.fearProfile k := by
  intro o k h
  rw [analyzeFearProfile_fearProfile]
  by_cases hall : (allFearTypes.all fun ft => (o.fearResponses ft).isEmpty) = true
  · rw [if_pos hall]
  · rw [if_neg hall, h]
    simp

theorem C3_witness :
    (analyzeFearProfile obsW).fearProfile .darkness = obsW.fearProfile .darkness :=
  C3_amended_unchanged_when_no_responses obsW .darkness rfl

/-- Sanity-change event of magnitude 200 used for the C4 counterexample. -/
def evilEvent : EventData := ⟨none, none, none, some (.float (-200)), 0, []⟩

/-- C4 counterexample: a sanity-changed event of magnitude 200 produces a
fear response of strength `200/20 = 10`; one analysis cycle then drives the
unknown-fear profile value to `0.5*0.7 + 10*0.3 = 3.35 > 1`, violating the
claimed [0,1] invariant. -/
theorem C4_counterexample :
    1 < (analyzeFearProfile (recordSanityChange obsW evilEvent)).fearProfile .unknown := by
  rw [analyzeFearProfile_fearProfile]
  norm_num [recordSanityChange, recordFearResponse, obsW, evilEvent, appendBounded,
    allFearTypes, determineFearType]

/-- C4 amended: each of the nine fear-profile values starts at 0.5, and an
analysis cycle keeps every value in [0,1] provided every stored response
strength lies in [0,1]; the original claim fails because sanity changes of
magnitude above 20 (and scare payload intensities above 1) produce response
strengths above 1. -/
theorem C4_amended_profile_bounded :
    (∀ (o : ObserverSystem) (k : FearType), (initProfiles o).fearProfile k = 1/2) ∧
    (∀ (o : ObserverSystem),
      (∀ k, 0 ≤ o.fearProfile k ∧ o.fearProfile k ≤ 1) →
      (∀ k, ∀ r ∈ o.fearResponses k, 0 ≤ r.StrengthOfFear ∧ r.StrengthOfFear ≤ 1) →
      ∀ k, 0 ≤ (analyzeFearProfile o).fearProfile k ∧
        (analyzeFearProfile o).fearProfile k ≤ 1) := by
  constructor
  · intro o k; rfl
  · intro o hprof hresp k
    rcases hprof k with ⟨h0, h1⟩
    rw [analyzeFearProfile_fearProfile]
    by_cases hall : (allFearTypes.all fun ft => (o.fearResponses ft).isEmpty) = true
    · rw [if_pos hall]; exact ⟨h0, h1⟩
    · rw [if_neg hall]
      by_cases hemp : (o.fearResponses k).isEmpty
      · rw [if_pos hemp]; exact ⟨h0, h1⟩
      · rw [if_neg hemp]
        have hlen : 0 < (o.fearResponses k).length := by
          cases hrseq : o.fearResponses k with
          | nil => rw [hrseq] at hemp; simp at hemp
          | cons a t => simp [hrseq]
        have hlenq : (0:ℚ) < ((o.fearResponses k).length : ℚ) := by exact_mod_cast hlen
        have hsum0 : 0 ≤ ((o.fearResponses k).map FearResponse.StrengthOfFear).sum := by
          apply List.sum_nonneg
          intro x hx
          rcases List.mem_map.mp hx with ⟨r, hr, rfl⟩
          exact (hresp k r hr).1
        have hsum1 : ((o.fearResponses k).map FearResponse.StrengthOfFear).sum
            ≤ ((o.fearResponses k).length : ℚ) := by
          have hb := List.sum_le_card_nsmul
            ((o.fearResponses k).map FearResponse.StrengthOfFear) 1 ?_
          · simpa using hb
          · intro x hx
            rcases List.mem_map.mp hx with ⟨r, hr, rfl⟩
            exact (hresp k r hr).2
        have havg0 : 0 ≤ ((o.fearResponses k).map FearResponse.StrengthOfFear).sum /
            ((o.fearResponses k).length : ℚ) := div_nonneg hsum0 (le_of_lt hlenq)
        have havg1 : ((o.fearResponses k).map FearResponse.StrengthOfFear).sum /
            ((o.fearResponses k).length : ℚ) ≤ 1 := (div_le_one hlenq).mpr hsum1
        constructor
        · have := mul_nonneg h0 (by norm_num : (0:ℚ) ≤ 7/10)
          have := mul_nonneg havg0 (by norm_num : (0:ℚ) ≤ 3/10)
          linarith
        · linarith

theorem C4_witness :
    0 ≤ (analyzeFearProfile obsW).fearProfile .darkness ∧
      (analyzeFearProfile obsW).fearProfile .darkness ≤ 1 :=
  C4_amended_profile_bounded.2 obsW
    (fun _ => ⟨by norm_num [obsW], by norm_num [obsW]⟩)
    (fun k r hr => absurd hr (by simp [obsW])) .darkness

/-- C5: every recommendation produced by the recommendation pass has an
intensity equal to `clamp(fearProfile*(1 + (1 - sanity/100)), 0.3, 1.0)`
for its fear target, and that intensity always lies within [0.3, 1.0],
for every fear-profile value and every current-sanity value. -/
theorem C5_intensity_bounds :
    ∀ (o : ObserverSystem) (rnd : ℕ),
      (∀ fearType,
        (generateRecommendationForFearType o rnd fearType).Intensity
          = max (3/10) (min 1
              (o.fearProfile fearType * (1 + (1 - o.context.CurrentSanity / 100)))) ∧
        3/10 ≤ (generateRecommendationForFearType o rnd fearType).Intensity ∧
        (generateRecommendationForFearType o rnd fearType).Intensity ≤ 1) ∧
      ((GenerateScareRecommendations o rnd).all fun r =>
        decide (3/10 ≤ r.Intensity ∧ r.Intensity ≤ 1)) = true := by
  intro o rnd
  have hform : ∀ fearType, (generateRecommendationForFearType o rnd fearType).Intensity
      = max (3/10) (min 1
          (o.fearProfile fearType * (1 + (1 - o.context.CurrentSanity / 100)))) :=
    fun _ => rfl
  have hlo : ∀ fearType,
      (3:ℚ)/10 ≤ (generateRecommendationForFearType o rnd fearType).Intensity := by
    intro ft
    rw [hform]
    exact le_max_left _ _
  have hhi : ∀ fearType,
      (generateRecommendationForFearType o rnd fearType).Intensity ≤ 1 := by
    intro ft
    rw [hform]
    exact max_le (by norm_num) (min_le_left _ _)
  refine ⟨fun ft => ⟨hform ft, hlo ft, hhi ft⟩, ?_⟩
  rw [List.all_eq_true]
  intro r hr
  simp only [GenerateScareRecommendations] at hr
  rw [mem_sortBy] at hr
  rcases List.mem_map.mp hr with ⟨ft, _, rfl⟩
  rw [decide_eq_true_eq]
  exact ⟨hlo ft, hhi ft⟩

theorem normalizeProfile_apply (p : ReactorType → ℚ) (key : ReactorType) :
    normalizeProfile p key =
      if profileMax p > profileMin p then
        (p key - profileMin p) / (profileMax p - profileMin p)
      else 1/2 := rfl

theorem profileMin_lt_profileMax_of_ne (p : ReactorType → ℚ)
    (h : ¬ ∀ i j, p i = p j) : profileMin p < profileMax p := by
  rcases lt_or_eq_of_le
      (le_trans (profileMin_le p .cautious) (le_profileMax p .cautious)) with hlt | heq
  · exact hlt
  · exfalso
    apply h
    intro i j
    have hi : p i = profileMin p :=
      le_antisymm (heq ▸ le_profileMax p i) (profileMin_le p i)
    have hj : p j = profileMin p :=
      le_antisymm (heq ▸ le_profileMax p j) (profileMin_le p j)
    rw [hi, hj]

/-- C6: whenever the reactor profile is recomputed (at least 10 recorded
actions), the six normalized scores attain exactly 0 and exactly 1 and stay
within [0,1] when the six raw scores are not all equal; when the raw scores
are all equal, every normalized score is exactly 0.5. -/
theorem C6_normalization :
    ∀ (o : ObserverSystem), 10 ≤ o.playerActions.length →
      ((¬ ∀ i j, rawReactorProfile o.playerActions i = rawReactorProfile o.playerActions j) →
        (∃ i, (analyzeReactorProfile o).reactorProfile i = 0) ∧
        (∀ i, 0 ≤ (analyzeReactorProfile o).reactorProfile i) ∧
        (∃ i, (analyzeReactorProfile o).reactorProfile i = 1) ∧
        (∀ i, (analyzeReactorProfile o).reactorProfile i ≤ 1)) ∧
      ((∀ i j, rawReactorProfile o.playerActions i = rawReactorProfile o.playerActions j) →
        ∀ i, (analyzeReactorProfile o).reactorProfile i = 1/2) := by
  intro o hlen
  have hprof : (analyzeReactorProfile o).reactorProfile
      = normalizeProfile (rawReactorProfile o.playerActions) := by
    unfold analyzeReactorProfile
    rw [if_neg (by omega)]
  rw [hprof]
  constructor
  · intro hne
    have hlt : profileMin (rawReactorProfile o.playerActions)
        < profileMax (rawReactorProfile o.playerActions) :=
      profileMin_lt_profileMax_of_ne _ hne
    have hpos : 0 < profileMax (rawReactorProfile o.playerActions)
        - profileMin (rawReactorProfile o.playerActions) := by linarith
    refine ⟨?_, ?_, ?_, ?_⟩
    · rcases profileMin_attained (rawReactorProfile o.playerActions) with ⟨k0, hk0⟩
      refine ⟨k0, ?_⟩
      rw [normalizeProfile_apply, if_pos hlt, ← hk0, sub_self, zero_div]
    · intro i
      rw [normalizeProfile_apply, if_pos hlt]
      exact div_nonneg (by linarith [profileMin_le (rawReactorProfile o.playerActions) i])
        (le_of_lt hpos)
    · rcases profileMax_attained (rawReactorProfile o.playerActions) with ⟨k1, hk1⟩
      refine ⟨k1, ?_⟩
      rw [normalizeProfile_apply, if_pos hlt, ← hk1]
      exact div_self (ne_of_gt hpos)
    · intro i
      rw [normalizeProfile_apply, if_pos hlt, div_le_one hpos]
      linarith [le_profileMax (rawReactorProfile o.playerActions) i]
  · intro heq i
    have hminmax : profileMax (rawReactorProfile o.playerActions)
        = profileMin (rawReactorProfile o.playerActions) := by
      rcases profileMin_attained (rawReactorProfile o.playerActions) with ⟨k0, hk0⟩
      rcases profileMax_attained (rawReactorProfile o.playerActions) with ⟨k1, hk1⟩
      rw [hk0, hk1, heq k1 k0]
    rw [normalizeProfile_apply, if_neg (by rw [hminmax]; exact lt_irrefl _)]

/-- Run action used to witness C6. -/
def actRun : PlayerAction := ⟨.run, ⟨0, 0⟩, ⟨0, 0⟩, none, 0, []⟩

/-- Observer with ten recorded run actions, witnessing C6. -/
def obsC6 : ObserverSystem :=
  { obsW with playerActions := [actRun, actRun, actRun, actRun, actRun,
      actRun, actRun, actRun, actRun, actRun] }

theorem C6_witness :
    10 ≤ obsC6.playerActions.length ∧
    (∃ i, (analyzeReactorProfile obsC6).reactorProfile i = 0) ∧
    (∃ i, (analyzeReactorProfile obsC6).reactorProfile i = 1) := by
  have h10 : 10 ≤ obsC6.playerActions.length := by
    norm_num [obsC6]
  have hne : ¬ ∀ i j, rawReactorProfile obsC6.playerActions i
      = rawReactorProfile obsC6.playerActions j := by
    intro h
    have hpc := h .panic .cautious
    have hrun : countActions obsC6.playerActions .run = 10 := by decide
    have hfreeze : countActions obsC6.playerActions .freeze = 0 := by decide
    have hhide : countActions obsC6.playerActions .hide = 0 := by decide
    have hretreat : countActions obsC6.playerActions .retreat = 0 := by decide
    have hattack : countActions obsC6.playerActions .attack = 0 := by decide
    have hlen10 : obsC6.playerActions.length = 10 := by decide
    simp only [rawReactorProfile, hrun, hfreeze, hhide, hretreat, hattack, hlen10] at hpc
    norm_num at hpc
  have h := (C6_normalization obsC6 h10).1 hne
  exact ⟨h10, h.1, h.2.2.1⟩

/-- Interaction analysis used for the C7 counterexample: interaction rate
0.2 (no interaction rule fires) and no scare-response data. -/
def iaW : InteractionAnalysis := ⟨1/5, [], [], 0, 0⟩

/-- Movement analysis for the first C7 cycle: only the explorer rule fires,
with path repetition 0, so the emitted weight is 0.8. -/
def mExp1 : MovementAnalysis := ⟨8/5, 20, 600, 0, []⟩

/-- Movement analysis for the second C7 cycle: only the explorer rule
fires, with path repetition 1, so the emitted weight is 0.7. -/
def mExp2 : MovementAnalysis := ⟨8/5, 20, 600, 1, []⟩

/-- C7 counterexample: the explorer pattern is detected in two successive
cycles with weights 0.8 and then 0.7, yet afterwards the list holds the
single entry with weight 0.7 — the second cycle's weight, not the average
0.75 — because `detectPatterns` rebuilds the list from scratch. -/
theorem C7_counterexample :
    ((detectPatterns mExp1 iaW []).map fun q => (q.Name, q.Weight)) = [("explorer", 4/5)] ∧
    ((detectPatterns mExp2 iaW (detectPatterns mExp1 iaW [])).map fun q => (q.Name, q.Weight))
        = [("explorer", 7/10)] ∧
    (7:ℚ)/10 ≠ (4/5 + 7/10) / 2 := by
  refine ⟨?_, ?_, by norm_num⟩ <;>
    norm_num [detectPatterns, detectMovementPatterns, detectInteractionPatterns,
      detectFearResponsePatterns, addPattern, sortBy, insertBy, mExp1, mExp2, iaW]

/-- C7 amended: the detected-pattern list is rebuilt from scratch every
cycle, so a pattern detected in two successive cycles ends with the second
cycle's weight; the weight-averaging merge of `addPattern` applies only to
duplicate names added within a single cycle, where it updates the first
matching entry to the average of old and new weight without duplicating. -/
theorem C7_amended_merge_within_cycle :
    (∀ (m : MovementAnalysis) (ia : InteractionAnalysis) (prev : List PlayerPattern),
      detectPatterns m ia prev = detectPatterns m ia []) ∧
    (∀ (pre post : List PlayerPattern) (q p : PlayerPattern),
      q.Name = p.Name → (∀ x ∈ pre, x.Name ≠ p.Name) →
      addPattern (pre ++ q :: post) p
        = pre ++ { q with Weight := (q.Weight + p.Weight) / 2 } :: post) := by
  constructor
  · intro m ia prev
    rfl
  · intro pre
    induction pre with
    | nil =>
      intro post q p hname _
      simp only [List.nil_append, addPattern, if_pos hname]
    | cons x pre' ih =>
      intro post q p hname hpre
      have hx : x.Name ≠ p.Name := hpre x (List.mem_cons_self x pre')
      simp only [List.cons_append, addPattern, if_neg hx, List.append_eq]
      rw [ih post q p hname (fun y hy => hpre y (List.mem_cons_of_mem x hy))]

/-- Single explorer pattern entries used to witness the C7 merge rule. -/
def expl1 : PlayerPattern := ⟨"explorer", "d", 4/5⟩

/-- Second explorer pattern entry used to witness the C7 merge rule. -/
def expl2 : PlayerPattern := ⟨"explorer", "d", 7/10⟩

theorem C7_witness :
    addPattern [expl1] expl2
      = [{ expl1 with Weight := (expl1.Weight + expl2.Weight) / 2 }] :=
  C7_amended_merge_within_cycle.2 [] [] expl1 expl2 rfl (by simp)

end Nightmare
